import Mathlib

/-!
Verification of the mcpi repository (MCP JSON-RPC server, plugin registry,
streamable HTTP session lifecycle, JSON-backed plugin, DNS-TXT discovery
client) against its natural-language specification, via a shallow embedding
of the Rust sources in Lean.

Modelling conventions:
* JSON values (`serde_json::Value`) are embedded as the inductive `Json`.
  JSON numbers are integers here; no claim under study involves non-integer
  numbers.  Objects are association lists; the source keeps objects in
  `BTreeMap`/`HashMap`, whose key order never matters for any property we
  state (all observations go through key lookup).
* Strings-of-JSON at transport boundaries are abstracted to parsed `Json`
  values: the source's serialize/re-parse round trips are identities at this
  level.
* Filesystem and network effects are abstracted to their results, passed to
  the embedded functions as explicit arguments.
-/

namespace Mcpi

/-- Embedding of `serde_json::Value` (mcpi-common): JSON values.  Numbers are
modelled as integers (no studied code path involves fractional numbers). -/
inductive Json where
  | null : Json
  | bool (b : Bool) : Json
  | num (n : Int) : Json
  | str (s : String) : Json
  | arr (elems : List Json) : Json
  | obj (fields : List (String × Json)) : Json
deriving Repr

/-- `Value::get(key)` on objects; `None` on any other variant. -/
def Json.get : Json → String → Option Json
  | Json.obj fields, key => (fields.find? (fun f => f.1 == key)).map (·.2)
  | _, _ => none

/-- `Value::as_str`. -/
def Json.asStr : Json → Option String
  | Json.str s => some s
  | _ => none

/-- `Value::as_array`. -/
def Json.asArr : Json → Option (List Json)
  | Json.arr xs => some xs
  | _ => none

/-- `Value::is_null`. -/
def Json.isNull : Json → Bool
  | Json.null => true
  | _ => false

/-!
String primitives.  Core `String.split`/`trim`/`toLower` are defined by
position-based well-founded recursion, which the kernel does not evaluate;
the same operations are therefore defined here structurally over the
underlying character list (`String.data`), which is what the Rust `str`
methods operate on anyway.
-/

/-- Splitting a character list at a predicate, dropping empty runs
(accumulator holds the current run, reversed): the char list counterpart of
Rust `str::split_whitespace` when used with `Char.isWhitespace`. -/
def splitRunsAux (p : Char → Bool) : List Char → List Char → List (List Char)
  | [], acc => if acc.isEmpty then [] else [acc.reverse]
  | c :: cs, acc =>
    if p c then
      if acc.isEmpty then splitRunsAux p cs []
      else acc.reverse :: splitRunsAux p cs []
    else splitRunsAux p cs (c :: acc)

/-- Rust `str::split_whitespace`: split on whitespace, dropping empty parts. -/
def splitWhitespace (s : String) : List String :=
  (splitRunsAux Char.isWhitespace s.data []).map String.mk

/-- Rust `str::trim`: drop leading and trailing whitespace. -/
def strTrim (s : String) : String :=
  String.mk
    (((s.data.dropWhile Char.isWhitespace).reverse.dropWhile Char.isWhitespace).reverse)

/-- Rust `str::to_lowercase` (ASCII-faithful; the full Unicode mapping of the
source only differs outside the data the claims touch). -/
def strToLower (s : String) : String :=
  String.mk (s.data.map Char.toLower)

/-- Rust `str::is_empty`. -/
def strIsEmpty (s : String) : Bool :=
  s.data.isEmpty

/-- Rust `str::split_once(c)`: split at the first occurrence of `c`. -/
def splitOnce (s : String) (c : Char) : Option (String × String) :=
  let pre := s.data.takeWhile (fun x => x ≠ c)
  let post := s.data.dropWhile (fun x => x ≠ c)
  match post with
  | [] => none
  | _ :: rest => some (String.mk pre, String.mk rest)

/-- Does `needle` occur at the head of `hay`? (char-list matching helper) -/
def charsLeading : List Char → List Char → Bool
  | [], _ => true
  | _ :: _, [] => false
  | a :: as, b :: bs => a == b && charsLeading as bs

/-- Does `needle` occur anywhere inside `hay`? (char-list matching helper) -/
def charsWithin (needle : List Char) : List Char → Bool
  | [] => needle.isEmpty
  | hay@(_ :: tl) => charsLeading needle hay || charsWithin needle tl

/-- Rust `str::contains(needle)`: substring containment. -/
def strContains (hay needle : String) : Bool :=
  charsWithin needle.data hay.data

/-- Rust `str::starts_with(pre)`. -/
def strStarts (s pre : String) : Bool :=
  charsLeading pre.data s.data

/-! ## DNS-TXT discovery client (mcpi-client/src/discovery.rs) -/

/-- `McpServiceInfo` from discovery.rs: the parsed TXT record. -/
structure McpServiceInfo where
  endpoint : String
  version : String
deriving Repr, DecidableEq

deriving instance DecidableEq for Except

/-- The ways `parse_mcp_txt_record` can fail, each carrying the message the
source formats into `McpDiscoveryError` (for the `Url::parse` failure the url
crate's own message is abstracted to a fixed string: no claim depends on it). -/
inductive TxtParseError where
  | noUrl : TxtParseError
  | urlParseError : TxtParseError
  | invalidScheme (scheme : String) : TxtParseError
deriving Repr, DecidableEq

/-- The user-visible message of each discovery error, as formatted in
discovery.rs. -/
def TxtParseError.message : TxtParseError → String
  | TxtParseError.noUrl => "No endpoint URL (url=...) found in TXT record"
  | TxtParseError.urlParseError => "relative URL without a base"
  | TxtParseError.invalidScheme s =>
      "Invalid endpoint protocol scheme: '" ++ s ++ "'. Expected ws, wss, http, or https."

/-- Shallow model of `url::Url::parse` restricted to the scheme component:
returns the (lowercased) scheme when the input starts with a syntactically
valid RFC-3986 scheme followed by a colon, `none` otherwise.  The claims under
study only observe the scheme of a parsed URL. -/
def parseUrlScheme (s : String) : Option String :=
  match splitOnce s ':' with
  | none => none
  | some (schemeRaw, _) =>
    match schemeRaw.data with
    | [] => none
    | c :: cs =>
      if c.isAlpha && cs.all (fun x => x.isAlphanum || x == '+' || x == '-' || x == '.') then
        some (String.mk ((c :: cs).map Char.toLower))
      else
        none

/-- `parse_mcp_txt_record` from discovery.rs: fold over the
whitespace-separated `key=value` parts, keeping the last `v` value (default
`"mcp1"`) and the last `url` value; then require an endpoint whose URL parses
with scheme ws/wss/http/https. -/
def parse_mcp_txt_record (txt_record_content : String) : Except TxtParseError McpServiceInfo :=
  let txt := strTrim txt_record_content
  let state := (splitWhitespace txt).foldl
    (fun (acc : String × Option String) part =>
      match splitOnce part '=' with
      | some (key, value) =>
        if key = "v" then (value, acc.2)
        else if key = "url" then (acc.1, some value)
        else acc
      | none => acc)
    ("mcp1", none)
  match state.2 with
  | none => Except.error TxtParseError.noUrl
  | some endpoint_str =>
    match parseUrlScheme endpoint_str with
    | none => Except.error TxtParseError.urlParseError
    | some scheme =>
      if scheme = "ws" ∨ scheme = "wss" ∨ scheme = "http" ∨ scheme = "https" then
        Except.ok { endpoint := endpoint_str, version := state.1 }
      else
        Except.error (TxtParseError.invalidScheme scheme)

/-- Claim-side characterisation helper: the `key=value` pairs of a TXT
payload, in order of appearance. -/
def txtKeyVals (txt : String) : List (String × String) :=
  (splitWhitespace (strTrim txt)).filterMap (fun part => splitOnce part '=')

/-- Claim-side characterisation helper: the value of the last pair carrying
the given key. -/
def lastVal (key : String) (kvs : List (String × String)) : Option String :=
  kvs.foldl (fun acc kv => if kv.1 = key then some kv.2 else acc) none

/-- The fold step of `parse_mcp_txt_record` over one whitespace part. -/
def txtFoldStep (acc : String × Option String) (part : String) : String × Option String :=
  match splitOnce part '=' with
  | some (key, value) =>
    if key = "v" then (value, acc.2)
    else if key = "url" then (acc.1, some value)
    else acc
  | none => acc

theorem parse_mcp_txt_record_def (txt : String) :
    parse_mcp_txt_record txt =
      (let state := (splitWhitespace (strTrim txt)).foldl txtFoldStep ("mcp1", none)
       match state.2 with
       | none => Except.error TxtParseError.noUrl
       | some endpoint_str =>
         match parseUrlScheme endpoint_str with
         | none => Except.error TxtParseError.urlParseError
         | some scheme =>
           if scheme = "ws" ∨ scheme = "wss" ∨ scheme = "http" ∨ scheme = "https" then
             Except.ok { endpoint := endpoint_str, version := state.1 }
           else
             Except.error (TxtParseError.invalidScheme scheme)) := rfl

theorem txtFold_eq_lastVals (parts : List String) :
    ∀ acc : String × Option String,
      parts.foldl txtFoldStep acc =
        ((parts.filterMap (fun part => splitOnce part '=')).foldl
            (fun a kv => if kv.1 = "v" then kv.2 else a) acc.1,
         (parts.filterMap (fun part => splitOnce part '=')).foldl
            (fun a kv => if kv.1 = "url" then some kv.2 else a) acc.2) := by
  induction parts with
  | nil => intro acc; rfl
  | cons part parts ih =>
    intro acc
    simp only [List.foldl_cons, List.filterMap_cons]
    cases h : splitOnce part '=' with
    | none => simp [txtFoldStep, h, ih]
    | some kv =>
      obtain ⟨k, v⟩ := kv
      by_cases hv : k = "v"
      · subst hv
        simp [txtFoldStep, h, ih]
      · by_cases hu : k = "url"
        · subst hu
          simp [txtFoldStep, h, hv, ih]
        · simp [txtFoldStep, h, hv, hu, ih]

theorem foldl_lastVal_getD (key : String) (kvs : List (String × String)) :
    ∀ (a : Option String) (d : String),
      (kvs.foldl (fun acc kv => if kv.1 = key then some kv.2 else acc) a).getD d =
        kvs.foldl (fun acc kv => if kv.1 = key then kv.2 else acc) (a.getD d) := by
  induction kvs with
  | nil => intro a d; rfl
  | cons kv kvs ih =>
    intro a d
    simp only [List.foldl_cons]
    by_cases hk : kv.1 = key
    · simp [hk, ih]
    · simp [hk, ih]

theorem foldl_lastVal_some (key : String) (kvs : List (String × String)) :
    ∀ (b : String),
      kvs.foldl (fun acc kv => if kv.1 = key then some kv.2 else acc) (some b) =
        some (kvs.foldl (fun acc kv => if kv.1 = key then kv.2 else acc) b) := by
  induction kvs with
  | nil => intro b; rfl
  | cons kv kvs ih =>
    intro b
    simp only [List.foldl_cons]
    by_cases hk : kv.1 = key
    · simp [hk, ih]
    · simp [hk, ih]

theorem charsLeading_self_append (l m : List Char) : charsLeading l (l ++ m) = true := by
  induction l with
  | nil => rfl
  | cons c cs ih => simp [charsLeading, ih]

theorem string_data_append (a b : String) : (a ++ b).data = a.data ++ b.data := by
  cases a; cases b; rfl

theorem charsWithin_of_leading (needle hay : List Char)
    (h : charsLeading needle hay = true) : charsWithin needle hay = true := by
  cases hay with
  | nil =>
    cases needle with
    | nil => rfl
    | cons c cs => simp [charsLeading] at h
  | cons y ys => simp [charsWithin, h]

theorem strContains_self_append (needle rest : String) :
    strContains (needle ++ rest) needle = true := by
  unfold strContains
  rw [string_data_append]
  exact charsWithin_of_leading _ _ (charsLeading_self_append _ _)

/-- **C7.** For every TXT payload of whitespace-separated `key=value` pairs
containing a `url` pair (last occurrence `Y`): if `Y` carries a URL scheme in
`{ws, wss, http, https}` the parser returns endpoint `Y` together with the
value of the (last) `v` pair, defaulting to `"mcp1"` when no `v` pair is
present — depending only on the key/value pairs, hence independent of pair
order, ignoring unknown keys and extra whitespace; and if `Y` carries any
other scheme, parsing fails with an error whose message contains
`Invalid endpoint protocol scheme: '<scheme>'`. -/
theorem claim_C7 (txt endpoint scheme : String)
    (hurl : lastVal "url" (txtKeyVals txt) = some endpoint)
    (hscheme : parseUrlScheme endpoint = some scheme) :
    ((scheme = "ws" ∨ scheme = "wss" ∨ scheme = "http" ∨ scheme = "https") →
        parse_mcp_txt_record txt =
          Except.ok ⟨endpoint, (lastVal "v" (txtKeyVals txt)).getD "mcp1"⟩)
    ∧ (¬(scheme = "ws" ∨ scheme = "wss" ∨ scheme = "http" ∨ scheme = "https") →
        parse_mcp_txt_record txt = Except.error (TxtParseError.invalidScheme scheme)
        ∧ strContains (TxtParseError.message (TxtParseError.invalidScheme scheme))
            ("Invalid endpoint protocol scheme: '" ++ scheme ++ "'") = true) := by
  have hfold := txtFold_eq_lastVals (splitWhitespace (strTrim txt)) ("mcp1", none)
  have hkv : (splitWhitespace (strTrim txt)).filterMap (fun part => splitOnce part '=') =
      txtKeyVals txt := rfl
  rw [hkv] at hfold
  have hurl' : (txtKeyVals txt).foldl
      (fun a kv => if kv.1 = "url" then some kv.2 else a) none = some endpoint := hurl
  have hv : (txtKeyVals txt).foldl (fun a kv => if kv.1 = "v" then kv.2 else a) "mcp1" =
      (lastVal "v" (txtKeyVals txt)).getD "mcp1" := by
    rw [lastVal, foldl_lastVal_getD]
    rfl
  constructor
  · intro hgood
    rw [parse_mcp_txt_record_def]
    simp only [hfold, hurl', hv, hscheme]
    simp [hgood]
  · intro hbad
    constructor
    · rw [parse_mcp_txt_record_def]
      simp only [hfold, hurl', hscheme]
      simp [hbad]
    · have : TxtParseError.message (TxtParseError.invalidScheme scheme) =
          ("Invalid endpoint protocol scheme: '" ++ scheme ++ "'") ++
            ". Expected ws, wss, http, or https." := by
        show "Invalid endpoint protocol scheme: '" ++ scheme ++
            "'. Expected ws, wss, http, or https." = _
        rw [String.append_assoc, String.append_assoc]
        rfl
      rw [this]
      exact strContains_self_append _ _

/-- Witness for C7 at a concrete payload with reordered pairs, an unknown key
and a defaulting check exercised elsewhere in the repo's own tests. -/
theorem claim_C7_witness :
    parse_mcp_txt_record "url=wss://secure.mcp.org/path v=mcp2 extra=data" =
      Except.ok ⟨"wss://secure.mcp.org/path",
        (lastVal "v" (txtKeyVals "url=wss://secure.mcp.org/path v=mcp2 extra=data")).getD
          "mcp1"⟩ :=
  (claim_C7 "url=wss://secure.mcp.org/path v=mcp2 extra=data" "wss://secure.mcp.org/path"
      "wss" (by decide) (by decide)).1 (by decide)

/-! ## JSON-backed plugin (mcpi-common/src/json_plugin.rs) -/

/-- `JsonDataPlugin::execute`: the generic SEARCH/GET/LIST plugin over a JSON
data file.  The filesystem read `self.load_data()` is abstracted to its result
`loadResult` (file-not-found or JSON parse failure arrive as
`Except.error`). -/
def jsonDataPluginExecute (operations : List String) (pluginName : String)
    (loadResult : Except String Json) (operation : String) (params : Json) :
    Except String Json :=
  if !(operations.contains operation) then
    Except.error ("Operation '" ++ operation ++ "' not supported for plugin '" ++
      pluginName ++ "'")
  else
    match loadResult with
    | Except.error e => Except.error e
    | Except.ok data =>
      match operation with
      | "SEARCH" =>
        let query := ((params.get "query").bind Json.asStr).getD ""
        let field := ((params.get "field").bind Json.asStr).getD "name"
        let items := data.asArr.getD []
        let filtered := items.filter (fun item =>
          let fieldValue := ((item.get field).bind Json.asStr).getD ""
          strIsEmpty query || strContains (strToLower fieldValue) (strToLower query))
        Except.ok (Json.obj [("results", Json.arr filtered),
          ("count", Json.num filtered.length),
          ("query", Json.str query),
          ("field", Json.str field)])
      | "GET" =>
        let id := ((params.get "id").bind Json.asStr).getD ""
        let items := data.asArr.getD []
        match items.find? (fun i => (i.get "id").bind Json.asStr == some id) with
        | some i => Except.ok i
        | none =>
          Except.ok (Json.obj [("error", Json.str "Item not found"),
            ("id", Json.str id)])
      | "LIST" =>
        Except.ok (Json.obj [("results", data),
          ("count", Json.num ((data.asArr.map List.length).getD 0))])
      | _ => Except.error ("Unsupported operation '" ++ operation ++ "'")

/-- Claim-side matching predicate for SEARCH: the item's `field` string
contains the query case-insensitively, an empty query matching every item. -/
def searchMatches (query field : String) (item : Json) : Prop :=
  query = "" ∨
    strContains (strToLower (((item.get field).bind Json.asStr).getD ""))
      (strToLower query) = true

instance (query field : String) (item : Json) : Decidable (searchMatches query field item) := by
  unfold searchMatches
  exact inferInstance

theorem strIsEmpty_iff (q : String) : strIsEmpty q = true ↔ q = "" := by
  cases q with
  | mk l =>
    cases l with
    | nil => simp [strIsEmpty]
    | cons c cs => simp [strIsEmpty, String.ext_iff]

/-- **C8.** For every JSON-backed plugin whose data file holds a JSON array,
executing SEARCH with optional string params `query` (default empty) and
`field` (default `"name"`) returns `{results, count, query, field}` where
`results` is exactly the sub-list, in data order, of items whose `item[field]`
string contains `query` case-insensitively (empty query matching every item)
and `count` is the length of `results`. -/
theorem claim_C8 (operations : List String) (pluginName query field : String)
    (items : List Json) (params : Json)
    (hop : operations.contains "SEARCH" = true)
    (hquery : ((params.get "query").bind Json.asStr).getD "" = query)
    (hfield : ((params.get "field").bind Json.asStr).getD "name" = field) :
    jsonDataPluginExecute operations pluginName (Except.ok (Json.arr items))
        "SEARCH" params =
      Except.ok (Json.obj
        [("results",
          Json.arr (items.filter (fun item => decide (searchMatches query field item)))),
         ("count",
          Json.num (items.filter (fun item => decide (searchMatches query field item))).length),
         ("query", Json.str query),
         ("field", Json.str field)]) := by
  subst hquery
  subst hfield
  have hfun : (fun item : Json =>
      strIsEmpty (((params.get "query").bind Json.asStr).getD "") ||
        strContains
          (strToLower (((item.get (((params.get "field").bind Json.asStr).getD "name")).bind
            Json.asStr).getD ""))
          (strToLower (((params.get "query").bind Json.asStr).getD ""))) =
      (fun item : Json =>
        decide (searchMatches (((params.get "query").bind Json.asStr).getD "")
          (((params.get "field").bind Json.asStr).getD "name") item)) := by
    funext item
    by_cases hq : ((params.get "query").bind Json.asStr).getD "" = ""
    · simp [searchMatches, hq, (strIsEmpty_iff _).mpr hq]
      exact Or.inl rfl
    · have : strIsEmpty (((params.get "query").bind Json.asStr).getD "") = false := by
        cases h : strIsEmpty (((params.get "query").bind Json.asStr).getD "") with
        | false => rfl
        | true => exact absurd ((strIsEmpty_iff _).mp h) hq
      simp [searchMatches, hq, this]
  unfold jsonDataPluginExecute
  simp only [hop, Bool.not_true, Bool.false_eq_true, if_false, Json.asArr, Option.getD_some]
  rw [hfun]

/-- Witness for C8: a concrete three-item data array searched with an
uppercase query against the defaulted `name` field. -/
theorem claim_C8_witness :
    jsonDataPluginExecute ["SEARCH", "GET", "LIST"] "store_product"
        (Except.ok (Json.arr
          [Json.obj [("name", Json.str "Alpha Widget")],
           Json.obj [("name", Json.str "beta")],
           Json.obj [("title", Json.str "alpha")]]))
        "SEARCH" (Json.obj [("query", Json.str "ALPHA")]) =
      Except.ok (Json.obj
        [("results",
          Json.arr ([Json.obj [("name", Json.str "Alpha Widget")],
            Json.obj [("name", Json.str "beta")],
            Json.obj [("title", Json.str "alpha")]].filter
              (fun item => decide (searchMatches "ALPHA" "name" item)))),
         ("count",
          Json.num ([Json.obj [("name", Json.str "Alpha Widget")],
            Json.obj [("name", Json.str "beta")],
            Json.obj [("title", Json.str "alpha")]].filter
              (fun item => decide (searchMatches "ALPHA" "name" item))).length),
         ("query", Json.str "ALPHA"),
         ("field", Json.str "name")]) :=
  claim_C8 ["SEARCH", "GET", "LIST"] "store_product" "ALPHA" "name"
    [Json.obj [("name", Json.str "Alpha Widget")],
     Json.obj [("name", Json.str "beta")],
     Json.obj [("title", Json.str "alpha")]]
    (Json.obj [("query", Json.str "ALPHA")]) (by decide) rfl rfl

/-! ## Wire types (mcpi-common/src/lib.rs) -/

/-- `ContentItem` (mcpi-common): the tagged content union.  Annotations are
carried opaquely as optional JSON; the dispatcher only ever constructs
`none`. -/
inductive ContentItem where
  | text (text : String) (annotations : Option Json) : ContentItem
  | image (data mimeType : String) (annotations : Option Json) : ContentItem
  | audio (data mimeType : String) (annotations : Option Json) : ContentItem
  | resource (resource : Json) (annotations : Option Json) : ContentItem

/-- Serialization of the optional `annotations` field (skipped when absent). -/
def annField : Option Json → List (String × Json)
  | some a => [("annotations", a)]
  | none => []

/-- serde serialization of `ContentItem`: tagged by `type`, camelCase. -/
def ContentItem.toJson : ContentItem → Json
  | ContentItem.text t ann =>
    Json.obj ([("type", Json.str "text"), ("text", Json.str t)] ++ annField ann)
  | ContentItem.image d m ann =>
    Json.obj ([("type", Json.str "image"), ("data", Json.str d),
      ("mimeType", Json.str m)] ++ annField ann)
  | ContentItem.audio d m ann =>
    Json.obj ([("type", Json.str "audio"), ("data", Json.str d),
      ("mimeType", Json.str m)] ++ annField ann)
  | ContentItem.resource r ann =>
    Json.obj ([("type", Json.str "resource"), ("resource", r)] ++ annField ann)

mutual

/-- Compact JSON rendering, standing in for `serde_json::to_string_pretty` in
the success branch of `tools/call` (pretty whitespace and string escaping are
abstracted; no claim under study observes this text). -/
def Json.render : Json → String
  | Json.null => "null"
  | Json.bool true => "true"
  | Json.bool false => "false"
  | Json.num n => toString n
  | Json.str s => "\"" ++ s ++ "\""
  | Json.arr xs => "[" ++ Json.renderList xs ++ "]"
  | Json.obj fs => "\x7b" ++ Json.renderFields fs ++ "\x7d"

def Json.renderList : List Json → String
  | [] => ""
  | [x] => Json.render x
  | x :: y :: xs => Json.render x ++ "," ++ Json.renderList (y :: xs)

def Json.renderFields : List (String × Json) → String
  | [] => ""
  | [(k, v)] => "\"" ++ k ++ "\":" ++ Json.render v
  | (k, v) :: f :: fs =>
    "\"" ++ k ++ "\":" ++ Json.render v ++ "," ++ Json.renderFields (f :: fs)

end

/-- `MCPI_VERSION` from mcpi-common. -/
def MCPI_VERSION : String := "2025-03-26"

/-- `PROTOCOL_VERSION_PLACEHOLDER` from mcpi-server/src/main.rs. -/
def PROTOCOL_VERSION_PLACEHOLDER : String := "0.1.0-unknown"

/-- `MCPRequest` (mcpi-common): `id` is a required field (its absence is a
deserialization error); `params` is optional. -/
structure MCPRequest where
  jsonrpc : String
  id : Json
  method : String
  params : Option Json

/-- serde deserialization of `MCPRequest` from a JSON value: the input must
be an object carrying `id` (any JSON value, null included) and a string
`method`; `jsonrpc` defaults to `"2.0"` when absent; `params` is `none` when
absent or null.  Unknown fields are ignored. -/
def parseMCPRequest (j : Json) : Option MCPRequest :=
  match j with
  | Json.obj _ =>
    match j.get "id", (j.get "method").bind Json.asStr with
    | some idv, some m =>
      match (match j.get "jsonrpc" with
             | none => some "2.0"
             | some (Json.str s) => some s
             | some _ => none) with
      | some jr =>
        some { jsonrpc := jr, id := idv, method := m,
               params := match j.get "params" with
                         | some Json.null => none
                         | v => v }
      | none => none
    | _, _ => none
  | _ => none

/-! ## Plugin contract and registry (mcpi-common/src/plugin.rs,
mcpi-server/src/plugin_registry.rs) -/

/-- A registered plugin (`dyn McpPlugin`): behaviour is carried as functions,
descriptive data as values.  `readResource` returns a `ContentItem`,
`getCompletions` a list of JSON values, as in the trait. -/
structure Plugin where
  name : String
  description : String
  category : String
  operations : List String
  inputSchema : Json
  execute : String → Json → Except String Json
  resources : List (String × String × Option String)
  readResource : String → Except String ContentItem
  toolAnnotations : Option Json
  getCompletions : String → Json → Json → List Json

/-- `PluginRegistry`: name → plugin map (a `HashMap` in the source, keyed by
`plugin.name()`, unique by construction of `register_plugin`; modelled as a
list looked up by name). -/
structure PluginRegistry where
  plugins : List Plugin

/-- `PluginRegistry::get_plugin`. -/
def PluginRegistry.get_plugin (r : PluginRegistry) (name : String) : Option Plugin :=
  r.plugins.find? (fun p => p.name == name)

/-- `PluginRegistry::get_all_plugins`. -/
def PluginRegistry.get_all_plugins (r : PluginRegistry) : List Plugin :=
  r.plugins

/-- `PluginRegistry::execute_plugin`: delegate to the named plugin, or fail
with a plugin-not-found message. -/
def PluginRegistry.execute_plugin (r : PluginRegistry) (name operation : String)
    (params : Json) : Except String Json :=
  match r.get_plugin name with
  | some plugin => plugin.execute operation params
  | none => Except.error ("Plugin '" ++ name ++ "' not found")

/-! ## Method dispatcher (mcpi-server/src/main.rs) -/

/-- `create_error_response` from main.rs. -/
def create_error_response (id : Json) (code : Int) (message : String) : Json :=
  Json.obj [("jsonrpc", Json.str "2.0"), ("id", id),
    ("error", Json.obj [("code", Json.num code), ("message", Json.str message)])]

/-- The `json!({"jsonrpc":"2.0","id":id,"result":result})` success envelope
every handler returns.  (serde's object key order is immaterial: all
observations are by key.) -/
def mkResult (id : Json) (result : Json) : Json :=
  Json.obj [("jsonrpc", Json.str "2.0"), ("id", id), ("result", result)]

/-- The `ServerCapabilities` value built in `handle_initialize`, serialized
(camelCase, absent options skipped). -/
def serverCapabilitiesJson : Json :=
  Json.obj [("resources",
      Json.obj [("subscribe", Json.bool true), ("listChanged", Json.bool true)]),
    ("tools", Json.obj [("listChanged", Json.bool true)])]

/-- `handle_initialize` from main.rs. -/
def handle_initialize (request : MCPRequest) (registry : PluginRegistry)
    (provider_info : Json) : Json :=
  let name := ((provider_info.get "name").bind Json.asStr).getD ""
  let desc := ((provider_info.get "description").bind Json.asStr).getD ""
  let _names := registry.get_all_plugins.map Plugin.name
  mkResult request.id (Json.obj
    [("protocolVersion", Json.str PROTOCOL_VERSION_PLACEHOLDER),
     ("capabilities", serverCapabilitiesJson),
     ("serverInfo", Json.obj [("name", Json.str name),
       ("version", Json.str MCPI_VERSION)]),
     ("instructions", Json.str ("Provider: " ++ desc))])

/-- `handle_list_resources` from main.rs. -/
def handle_list_resources (request : MCPRequest) (registry : PluginRegistry)
    (provider_info : Json) : Json :=
  let domain := ((provider_info.get "domain").bind Json.asStr).getD "example.com"
  let resources := (registry.get_all_plugins.map (fun p =>
    p.resources.map (fun r =>
      Json.obj ([("uri", Json.str ("mcpi://" ++ domain ++ "/resources/" ++
          p.name ++ "/" ++ r.2.1)),
        ("name", Json.str r.1)] ++
        (match r.2.2 with
         | some d => [("description", Json.str d)]
         | none => []) ++
        [("mimeType", Json.str "application/json")])))).flatten
  mkResult request.id (Json.obj [("resources", Json.arr resources)])

/-- Splitting a character list at a separator, keeping empty parts: the char
list counterpart of the url crate's path-segment split on `/`. -/
def splitSep (c : Char) : List Char → List (List Char)
  | [] => [[]]
  | x :: xs =>
    if x = c then [] :: splitSep c xs
    else
      match splitSep c xs with
      | h :: t => (x :: h) :: t
      | [] => [[x]]

/-- Shallow model of `Url::parse` as used by `handle_read_resource`: the
scheme and the path segments after the authority.  Inputs on which the url
crate fails, or yields no path segments, map to `none`; the handler reacts to
both with the same `-32602` response, so the distinction is not observable. -/
def parseUrlSegments (s : String) : Option (String × List String) :=
  match parseUrlScheme s with
  | none => none
  | some scheme =>
    match splitOnce s ':' with
    | none => none
    | some (_, rest) =>
      match rest.data with
      | '/' :: '/' :: tail =>
        match tail.dropWhile (fun c => c ≠ '/') with
        | [] => some (scheme, [""])
        | _ :: pathTail => some (scheme, (splitSep '/' pathTail).map String.mk)
      | _ => none

/-- `handle_read_resource` from main.rs: `mcpi://…/resources/<plugin>/<suffix>`
URIs; every malformed input collapses to the `-32602` fallthrough. -/
def handle_read_resource (request : MCPRequest) (registry : PluginRegistry) : Json :=
  let fallback := create_error_response request.id (-32602) "Invalid params for resources/read"
  match request.params.bind (fun p => (p.get "uri").bind Json.asStr) with
  | some u =>
    match parseUrlSegments u with
    | some (scheme, path) =>
      if scheme = "mcpi" then
        match path with
        | p0 :: p_name :: suffixParts =>
          if p0 = "resources" ∧ suffixParts ≠ [] then
            let r_suffix := String.intercalate "/" suffixParts
            match registry.get_plugin p_name with
            | some p =>
              match p.readResource r_suffix with
              | Except.ok (ContentItem.text t _) =>
                mkResult request.id (Json.obj [("contents", Json.arr
                  [Json.obj [("uri", Json.str u),
                    ("mimeType", Json.str "text/plain"),
                    ("text", Json.str t)]])])
              | Except.ok _ =>
                create_error_response request.id 101
                  "Internal error: Cannot format resource content"
              | Except.error e =>
                create_error_response request.id 100 ("Read err: " ++ e)
            | none => fallback
          else fallback
        | _ => fallback
      else fallback
    | none => fallback
  | none => fallback

/-- `handle_list_tools` from main.rs. -/
def handle_list_tools (request : MCPRequest) (registry : PluginRegistry) : Json :=
  let tools := registry.get_all_plugins.map (fun p =>
    Json.obj ([("name", Json.str p.name),
      ("description", Json.str p.description),
      ("inputSchema", p.inputSchema)] ++
      (match p.toolAnnotations with
       | some a => [("annotations", a)]
       | none => [])))
  mkResult request.id (Json.obj [("tools", Json.arr tools)])

/-- The serialized `CallToolResult`: `content` plus the always-present
`isError` flag. -/
def callToolResultJson (content : List ContentItem) (is_error : Bool) : Json :=
  Json.obj [("content", Json.arr (content.map ContentItem.toJson)),
    ("isError", Json.bool is_error)]

/-- `handle_call_tool` from main.rs: look up and run the tool; a plugin
`Err` (including plugin-not-found from the registry) becomes a *success*
envelope whose result has `isError=true` and one Text content
`"Exec err: <message>"`; missing/malformed params become `-32602`. -/
def handle_call_tool (request : MCPRequest) (registry : PluginRegistry) : Json :=
  match request.params with
  | some (Json.obj fields) =>
    let p := Json.obj fields
    match (p.get "name").bind Json.asStr, p.get "arguments" with
    | some name, some args =>
      let op := ((args.get "operation").bind Json.asStr).getD "DEFAULT"
      match registry.execute_plugin name op args with
      | Except.ok res =>
        let content_items :=
          match res with
          | Json.str s => [ContentItem.text s none]
          | Json.null => []
          | other => [ContentItem.text (Json.render other) none]
        mkResult request.id (callToolResultJson content_items false)
      | Except.error e =>
        mkResult request.id
          (callToolResultJson [ContentItem.text ("Exec err: " ++ e) none] true)
    | _, _ => create_error_response request.id (-32602) "Invalid params for tools/call"
  | _ => create_error_response request.id (-32602) "Invalid params for tools/call"

/-- `CompletionArgument` (mcpi-common). -/
structure CompletionArgument where
  name : String
  value : String

/-- `ResourceOrPromptRef` (mcpi-common): tagged by `type`. -/
inductive ResourceOrPromptRef where
  | prompt (name : String) : ResourceOrPromptRef
  | resource (uri : String) : ResourceOrPromptRef

/-- `CompleteRequestParams` (mcpi-common): `ref`, `argument`, and — through
`#[serde(flatten)]` — every remaining params field collected into
`context`. -/
structure CompleteRequestParams where
  ref : ResourceOrPromptRef
  argument : CompletionArgument
  context : Option (List (String × Json))

/-- serde deserialization of the internally-tagged `ResourceOrPromptRef`. -/
def parseRef (j : Json) : Option ResourceOrPromptRef :=
  match j.get "type" with
  | some (Json.str "ref/prompt") => ((j.get "name").bind Json.asStr).map ResourceOrPromptRef.prompt
  | some (Json.str "ref/resource") => ((j.get "uri").bind Json.asStr).map ResourceOrPromptRef.resource
  | _ => none

/-- serde deserialization of `CompleteRequestParams` as invoked by
`handle_completions` (`None` params is the source's "Missing params" error;
serde's error texts are abstracted to fixed strings — only the `-32602`
outcome is observable in the claims). -/
def parseCompleteParams (params : Option Json) : Except String CompleteRequestParams :=
  match params with
  | none => Except.error "Missing params"
  | some (Json.obj fields) =>
    match (Json.obj fields : Json).get "ref" with
    | some refJson =>
      match parseRef refJson with
      | some r =>
        match (Json.obj fields : Json).get "argument" with
        | some argJson =>
          match (argJson.get "name").bind Json.asStr,
              (argJson.get "value").bind Json.asStr with
          | some n, some v =>
            Except.ok ⟨r, ⟨n, v⟩,
              some (fields.filter
                (fun f => !(f.1 == "ref") && !(f.1 == "argument")))⟩
          | _, _ => Except.error "invalid argument"
        | none => Except.error "missing field argument"
      | none => Except.error "invalid ref"
    | none => Except.error "missing field ref"
  | some _ => Except.error "invalid type: not an object"

/-- The serialized `CompleteResult`. -/
def completeResultJson (values : List String) : Json :=
  Json.obj [("completion", Json.obj [("values", Json.arr (values.map Json.str))])]

/-- `handle_completions` from main.rs: when `argument.name == "name"` and the
flattened context carries no tool name, complete over registered plugin
names; when the context names a tool, delegate to that plugin's
`get_completions`; otherwise an empty completion list. -/
def handle_completions (request : MCPRequest) (registry : PluginRegistry) : Json :=
  match parseCompleteParams request.params with
  | Except.ok comp_params =>
    let param_name := comp_params.argument.name
    let argValue := comp_params.argument.value
    let tool_name_context :=
      (comp_params.context.bind (fun ctx =>
        (ctx.find? (fun f => f.1 == "name")).map (·.2))).bind Json.asStr
    if param_name == "name" && tool_name_context.isNone then
      let tool_names := (registry.get_all_plugins.map Plugin.name).filter
        (fun n => strStarts n argValue)
      mkResult request.id (completeResultJson tool_names)
    else
      match tool_name_context with
      | some tool_name =>
        match registry.get_plugin tool_name with
        | some plugin =>
          let argValueJson := Json.str argValue
          let context_json :=
            match comp_params.context with
            | some ctx => Json.obj ctx
            | none => Json.null
          let sugg_values := plugin.getCompletions param_name argValueJson context_json
          mkResult request.id (completeResultJson (sugg_values.filterMap Json.asStr))
        | none => mkResult request.id (completeResultJson [])
      | none => mkResult request.id (completeResultJson [])
  | Except.error e =>
    create_error_response request.id (-32602)
      ("Invalid params for completion/complete: " ++ e)

/-- `handle_ping` from main.rs: an empty-object result. -/
def handle_ping (request : MCPRequest) : Json :=
  mkResult request.id (Json.obj [])

/-- The method dispatch of `process_mcp_message`, after `MCPRequest`
deserialization succeeded.  Note the completion route is the literal method
string `"completions"`. -/
def dispatchRequest (registry : PluginRegistry) (provider_info : Json)
    (req : MCPRequest) : Json :=
  match req.method with
  | "initialize" => handle_initialize req registry provider_info
  | "resources/list" => handle_list_resources req registry provider_info
  | "resources/read" => handle_read_resource req registry
  | "tools/list" => handle_list_tools req registry
  | "tools/call" => handle_call_tool req registry
  | "completions" => handle_completions req registry
  | "ping" => handle_ping req
  | m => create_error_response req.id (-32601) ("Method not found: " ++ m)

/-- `process_mcp_message` from main.rs over a parsed message value (the JSON
text layer is abstracted; serde's parse-error text is abstracted to a fixed
string). -/
def process_mcp_message (registry : PluginRegistry) (provider_info : Json)
    (message : Json) : Option Json :=
  match parseMCPRequest message with
  | some req => some (dispatchRequest registry provider_info req)
  | none => some (create_error_response Json.null (-32700) "Parse error: invalid MCPRequest")

/-! ## Batch handler (mcpi-server/src/message_handler.rs) -/

/-- `McpMessageHandler::process_batch`: walk the batch accumulating
responses.  An element whose `id` is absent or JSON null is a notification:
it is processed (in the source, for side effects only) and contributes no
response.  An element with a non-null `id` contributes exactly one response:
the dispatched response when it deserializes as `MCPRequest` (the source's
serialize/re-parse round trip is the identity here, and
`process_mcp_message` never returns `None` for a parsed request, so the
source's `-32603` fallback is unreachable), or a `-32700` response carrying
the element's `id` when it does not. -/
def batchStep (registry : PluginRegistry) (provider_info : Json)
    (acc : List Json) (message : Json) : List Json :=
  let message_id := (message.get "id").getD Json.null
  if message_id.isNull then
    acc
  else
    match parseMCPRequest message with
    | some req => acc ++ [dispatchRequest registry provider_info req]
    | none =>
      acc ++ [create_error_response message_id (-32700)
        "Parse error: Invalid MCPRequest"]

/-- `McpMessageHandler::process_batch` (see `batchStep` for the per-element
step). -/
def process_batch (registry : PluginRegistry) (provider_info : Json)
    (messages : List Json) : Option Json :=
  let responses := messages.foldl (batchStep registry provider_info) []
  if responses.isEmpty then none else some (Json.arr responses)

/-- `McpMessageHandler::handle_message` over a parsed message value: arrays
go to the batch path, objects to the single-message path, anything else is a
parse error with `id=null`.  (In the source the choice is made by sniffing the
first/last byte of the raw text; at the parsed-JSON level that is the
top-level constructor.) -/
def handle_message (registry : PluginRegistry) (provider_info : Json)
    (message : Json) : Option Json :=
  match message with
  | Json.arr batch => process_batch registry provider_info batch
  | Json.obj _ => process_mcp_message registry provider_info message
  | _ => some (create_error_response Json.null (-32700) "Parse error: Invalid JSON")

/-! ## Streamable HTTP transport (mcpi-server/src/main.rs) -/

/-- `HttpSessionInfo` from main.rs. -/
structure HttpSessionInfo where
  last_event_id : Option String
deriving Repr, DecidableEq

/-- The `http_sessions` map: session id → session info (a `HashMap` behind a
lock in the source; keys unique, order immaterial). -/
abbrev SessionTable : Type := List (String × HttpSessionInfo)

/-- `HashMap::contains_key`. -/
def containsKey (t : SessionTable) (id : String) : Bool :=
  t.any (fun e => e.1 == id)

/-- `HashMap::remove` (keys are unique, so dropping every pair with the key
is exact removal). -/
def removeKey (t : SessionTable) (id : String) : SessionTable :=
  t.filter (fun e => !(e.1 == id))

/-- `HashMap::get` by session id. -/
def lookupSession (t : SessionTable) (id : String) : Option HttpSessionInfo :=
  (t.find? (fun e => e.1 == id)).map (·.2)

/-- The `sessions.entry(id).or_insert_with(..)` + optional `last_event_id`
update performed by the GET handler. -/
def sessionEntryUpdate (t : SessionTable) (id : String) (leid : Option String) :
    SessionTable :=
  let t' := if containsKey t id then t else t ++ [(id, ⟨none⟩)]
  match leid with
  | some l => t'.map (fun e => if e.1 == id then (e.1, ⟨some l⟩) else e)
  | none => t'

/-- An HTTP response as far as the claims observe it: status, headers,
body. -/
structure HttpResponse where
  status : Nat
  headers : List (String × String)
  body : String
deriving Repr, DecidableEq

/-- `handle_streamable_get` from main.rs: with an `mcp-session-id` header the
session is looked up **or created** and a static SSE placeholder is served;
without one the request is rejected with 400.  No `mcp-session-id` response
header is ever set. -/
def handle_streamable_get (t : SessionTable) (session_id last_event_id : Option String) :
    HttpResponse × SessionTable :=
  match session_id with
  | some id =>
    ({ status := 200,
       headers := [("content-type", "text/event-stream"),
         ("cache-control", "no-cache"), ("connection", "keep-alive")],
       body := "data: Connected (SSE Placeholder)\n\n" },
     sessionEntryUpdate t id last_event_id)
  | none =>
    ({ status := 400, headers := [], body := "mcp-session-id header required" }, t)

/-- `handle_streamable_post` from main.rs, reduced to what the claims
observe: the status code and response body produced from the message
handler's output (the session-id header only affects logging and the derived
client id). -/
def handle_streamable_post (registry : PluginRegistry) (provider_info : Json)
    (body : Json) : Nat × Option Json :=
  match handle_message registry provider_info body with
  | some response_body => (200, some response_body)
  | none => (204, none)

/-- `handle_streamable_delete` from main.rs: 400 without the header, 404 for
an unknown id, 200 and removal for a known one. -/
def handle_streamable_delete (t : SessionTable) (session_id : Option String) :
    HttpResponse × SessionTable :=
  match session_id with
  | some id =>
    if containsKey t id then
      ({ status := 200, headers := [], body := "Session terminated" }, removeKey t id)
    else
      ({ status := 404, headers := [], body := "Session not found" }, t)
  | none =>
    ({ status := 400, headers := [], body := "mcp-session-id header required" }, t)

/-! ## Claims about tools/call error encoding (C1, C2) -/

theorem Json.asStr_str (s : String) : Json.asStr (Json.str s) = some s := rfl

/-- **C1.** For every `tools/call` request naming a registered tool whose
`execute` returns an error, the dispatcher returns a JSON-RPC *success*
envelope (a `result`, no `error` member) whose result has `isError = true`
and whose content is exactly one Text item whose text begins with
`"Exec err: "`. -/
theorem claim_C1 (registry : PluginRegistry) (provider_info : Json)
    (jrpc : String) (rid : Json) (fields : List (String × Json))
    (name : String) (args : Json) (p : Plugin) (e : String)
    (hname : (Json.obj fields).get "name" = some (Json.str name))
    (hargs : (Json.obj fields).get "arguments" = some args)
    (hplugin : registry.get_plugin name = some p)
    (hexec : p.execute (((args.get "operation").bind Json.asStr).getD "DEFAULT") args =
      Except.error e) :
    dispatchRequest registry provider_info
        ⟨jrpc, rid, "tools/call", some (Json.obj fields)⟩ =
      mkResult rid (callToolResultJson [ContentItem.text ("Exec err: " ++ e) none] true)
    ∧ (dispatchRequest registry provider_info
        ⟨jrpc, rid, "tools/call", some (Json.obj fields)⟩).get "error" = none
    ∧ (dispatchRequest registry provider_info
        ⟨jrpc, rid, "tools/call", some (Json.obj fields)⟩).get "result" =
        some (callToolResultJson [ContentItem.text ("Exec err: " ++ e) none] true)
    ∧ strStarts ("Exec err: " ++ e) "Exec err: " = true := by
  have hmain : dispatchRequest registry provider_info
      ⟨jrpc, rid, "tools/call", some (Json.obj fields)⟩ =
      mkResult rid (callToolResultJson [ContentItem.text ("Exec err: " ++ e) none] true) := by
    show handle_call_tool ⟨jrpc, rid, "tools/call", some (Json.obj fields)⟩ registry = _
    unfold handle_call_tool
    simp only [hname, hargs, Option.some_bind, Json.asStr_str, PluginRegistry.execute_plugin,
      hplugin, hexec]
  refine ⟨hmain, ?_, ?_, ?_⟩
  · rw [hmain]; rfl
  · rw [hmain]; rfl
  · show charsLeading ("Exec err: ").data (("Exec err: " ++ e).data) = true
    rw [string_data_append]
    exact charsLeading_self_append _ _

/-- Witness for C1: a one-plugin registry whose tool fails with `"boom"`. -/
theorem claim_C1_witness :
    dispatchRequest
        ⟨[{ name := "t1", description := "d", category := "c", operations := ["GET"],
            inputSchema := Json.obj [], execute := fun _ _ => Except.error "boom",
            resources := [], readResource := fun _ => Except.error "unsupported",
            toolAnnotations := none, getCompletions := fun _ _ _ => [] }]⟩
        Json.null
        ⟨"2.0", Json.num 1, "tools/call",
          some (Json.obj [("name", Json.str "t1"), ("arguments", Json.obj [])])⟩ =
      mkResult (Json.num 1)
        (callToolResultJson [ContentItem.text ("Exec err: " ++ "boom") none] true) :=
  (claim_C1
    ⟨[{ name := "t1", description := "d", category := "c", operations := ["GET"],
        inputSchema := Json.obj [], execute := fun _ _ => Except.error "boom",
        resources := [], readResource := fun _ => Except.error "unsupported",
        toolAnnotations := none, getCompletions := fun _ _ _ => [] }]⟩
    Json.null "2.0" (Json.num 1)
    [("name", Json.str "t1"), ("arguments", Json.obj [])]
    "t1" (Json.obj []) _ "boom" rfl rfl rfl rfl).1

/-- Counterexample to **C2** as stated: calling the unregistered tool
`missing_tool` over an empty registry yields an envelope with a `result`
member and no `error` member — not the claimed `-32602` JSON-RPC error
envelope. -/
theorem claim_C2_counterexample :
    (dispatchRequest ⟨[]⟩ Json.null
        ⟨"2.0", Json.num 1, "tools/call",
          some (Json.obj [("name", Json.str "missing_tool"),
            ("arguments", Json.obj [])])⟩).get "error" = none
    ∧ (dispatchRequest ⟨[]⟩ Json.null
        ⟨"2.0", Json.num 1, "tools/call",
          some (Json.obj [("name", Json.str "missing_tool"),
            ("arguments", Json.obj [])])⟩).get "result" =
        some (callToolResultJson
          [ContentItem.text "Exec err: Plugin 'missing_tool' not found" none] true) :=
  ⟨rfl, rfl⟩

/-- **C2 (amended).** For every `tools/call` request whose params name a tool
that is not in the plugin registry, the dispatcher returns not an error
envelope but a JSON-RPC *success* envelope whose result has `isError = true`
and exactly one Text content `"Exec err: Plugin '<name>' not found"`, which
names the missing tool. -/
theorem claim_C2 (registry : PluginRegistry) (provider_info : Json)
    (jrpc : String) (rid : Json) (fields : List (String × Json))
    (name : String) (args : Json)
    (hname : (Json.obj fields).get "name" = some (Json.str name))
    (hargs : (Json.obj fields).get "arguments" = some args)
    (hplugin : registry.get_plugin name = none) :
    dispatchRequest registry provider_info
        ⟨jrpc, rid, "tools/call", some (Json.obj fields)⟩ =
      mkResult rid (callToolResultJson
        [ContentItem.text ("Exec err: " ++ ("Plugin '" ++ name ++ "' not found")) none] true)
    ∧ (dispatchRequest registry provider_info
        ⟨jrpc, rid, "tools/call", some (Json.obj fields)⟩).get "error" = none := by
  have hmain : dispatchRequest registry provider_info
      ⟨jrpc, rid, "tools/call", some (Json.obj fields)⟩ =
      mkResult rid (callToolResultJson
        [ContentItem.text ("Exec err: " ++ ("Plugin '" ++ name ++ "' not found")) none]
        true) := by
    show handle_call_tool ⟨jrpc, rid, "tools/call", some (Json.obj fields)⟩ registry = _
    unfold handle_call_tool
    simp only [hname, hargs, Option.some_bind, Json.asStr_str, PluginRegistry.execute_plugin,
      hplugin]
  exact ⟨hmain, by rw [hmain]; rfl⟩

/-- Witness for C2 (amended) at the counterexample's input. -/
theorem claim_C2_witness :
    dispatchRequest ⟨[]⟩ Json.null
        ⟨"2.0", Json.num 1, "tools/call",
          some (Json.obj [("name", Json.str "missing_tool"),
            ("arguments", Json.obj [])])⟩ =
      mkResult (Json.num 1) (callToolResultJson
        [ContentItem.text ("Exec err: " ++ ("Plugin '" ++ "missing_tool" ++ "' not found"))
          none] true) :=
  (claim_C2 ⟨[]⟩ Json.null "2.0" (Json.num 1)
    [("name", Json.str "missing_tool"), ("arguments", Json.obj [])]
    "missing_tool" (Json.obj []) rfl rfl rfl).1

/-! ## Claims about completion routing (C9) -/

/-- Counterexample to **C9** as stated: a request whose method is the string
`"completion/complete"`, with valid completion params (shown parsing
successfully) over a one-plugin registry, is answered with `-32601` method
not found — the dispatcher's completion route is the method string
`"completions"`. -/
theorem claim_C9_counterexample :
    parseCompleteParams (some (Json.obj
        [("ref", Json.obj [("type", Json.str "ref/prompt"), ("name", Json.str "x")]),
         ("argument", Json.obj [("name", Json.str "name"), ("value", Json.str "t")])])) =
      Except.ok ⟨ResourceOrPromptRef.prompt "x", ⟨"name", "t"⟩, some []⟩
    ∧ dispatchRequest
        ⟨[{ name := "t1", description := "d", category := "c", operations := ["GET"],
            inputSchema := Json.obj [], execute := fun _ _ => Except.error "boom",
            resources := [], readResource := fun _ => Except.error "unsupported",
            toolAnnotations := none, getCompletions := fun _ _ _ => [] }]⟩
        Json.null
        ⟨"2.0", Json.num 4, "completion/complete",
          some (Json.obj
            [("ref", Json.obj [("type", Json.str "ref/prompt"), ("name", Json.str "x")]),
             ("argument", Json.obj [("name", Json.str "name"),
               ("value", Json.str "t")])])⟩ =
      create_error_response (Json.num 4) (-32601)
        "Method not found: completion/complete" :=
  ⟨rfl, rfl⟩

/-- **C9 (amended).** The completion route is the method string
`"completions"` (a request with method `"completion/complete"` is answered
with `-32601`, as the counterexample shows).  For every request with method
`"completions"` and valid params where `argument.name = "name"` and the
flattened context names no tool, the dispatcher returns a success result
`{completion: {values}}` whose values are exactly the registered plugin names
starting with `argument.value`. -/
theorem claim_C9 (registry : PluginRegistry) (provider_info : Json)
    (jrpc : String) (rid : Json) (params : Option Json) (cp : CompleteRequestParams)
    (hparse : parseCompleteParams params = Except.ok cp)
    (hargname : cp.argument.name = "name")
    (hctx : (cp.context.bind (fun ctx =>
      (ctx.find? (fun f => f.1 == "name")).map (·.2))).bind Json.asStr = none) :
    dispatchRequest registry provider_info ⟨jrpc, rid, "completions", params⟩ =
      mkResult rid (completeResultJson
        ((registry.get_all_plugins.map Plugin.name).filter
          (fun n => strStarts n cp.argument.value)))
    ∧ (dispatchRequest registry provider_info
        ⟨jrpc, rid, "completions", params⟩).get "error" = none := by
  have hmain : dispatchRequest registry provider_info ⟨jrpc, rid, "completions", params⟩ =
      mkResult rid (completeResultJson
        ((registry.get_all_plugins.map Plugin.name).filter
          (fun n => strStarts n cp.argument.value))) := by
    show handle_completions ⟨jrpc, rid, "completions", params⟩ registry = _
    unfold handle_completions
    simp only [hparse, hargname, hctx, Option.isNone_none, Bool.and_true, beq_self_eq_true,
      if_true]
  exact ⟨hmain, by rw [hmain]; rfl⟩

/-- Witness for C9 (amended): one registered plugin `t1`, completing the
tool-name argument from `"t"`. -/
theorem claim_C9_witness :
    dispatchRequest
        ⟨[{ name := "t1", description := "d", category := "c", operations := ["GET"],
            inputSchema := Json.obj [], execute := fun _ _ => Except.error "boom",
            resources := [], readResource := fun _ => Except.error "unsupported",
            toolAnnotations := none, getCompletions := fun _ _ _ => [] }]⟩
        Json.null
        ⟨"2.0", Json.num 3, "completions",
          some (Json.obj
            [("ref", Json.obj [("type", Json.str "ref/prompt"), ("name", Json.str "x")]),
             ("argument", Json.obj [("name", Json.str "name"),
               ("value", Json.str "t")])])⟩ =
      mkResult (Json.num 3) (completeResultJson
        ((PluginRegistry.get_all_plugins
            ⟨[{ name := "t1", description := "d", category := "c", operations := ["GET"],
                inputSchema := Json.obj [], execute := fun _ _ => Except.error "boom",
                resources := [], readResource := fun _ => Except.error "unsupported",
                toolAnnotations := none, getCompletions := fun _ _ _ => [] }]⟩ |>.map
              Plugin.name).filter (fun n => strStarts n "t"))) :=
  (claim_C9
    ⟨[{ name := "t1", description := "d", category := "c", operations := ["GET"],
        inputSchema := Json.obj [], execute := fun _ _ => Except.error "boom",
        resources := [], readResource := fun _ => Except.error "unsupported",
        toolAnnotations := none, getCompletions := fun _ _ _ => [] }]⟩
    Json.null "2.0" (Json.num 3)
    (some (Json.obj
      [("ref", Json.obj [("type", Json.str "ref/prompt"), ("name", Json.str "x")]),
       ("argument", Json.obj [("name", Json.str "name"), ("value", Json.str "t")])]))
    ⟨ResourceOrPromptRef.prompt "x", ⟨"name", "t"⟩, some []⟩
    rfl rfl rfl).1

/-! ## Claims about batching and request/response correspondence
(C3, C4, C10) -/

/-- Claim-side characterisation: the response, if any, that a single batch
element contributes. -/
def respondTo (registry : PluginRegistry) (provider_info : Json) (message : Json) :
    Option Json :=
  let message_id := (message.get "id").getD Json.null
  if message_id.isNull then none
  else
    some (match parseMCPRequest message with
      | some req => dispatchRequest registry provider_info req
      | none => create_error_response message_id (-32700) "Parse error: Invalid MCPRequest")

/-- Claim-side count of the non-notification elements of a batch (those
carrying a non-null `id`). -/
def countIds (messages : List Json) : Nat :=
  messages.countP (fun m => !((m.get "id").getD Json.null).isNull)

theorem batch_foldl_eq (registry : PluginRegistry) (provider_info : Json) :
    ∀ (messages : List Json) (acc : List Json),
      messages.foldl (batchStep registry provider_info) acc =
        acc ++ messages.filterMap (respondTo registry provider_info) := by
  intro messages
  induction messages with
  | nil => intro acc; simp
  | cons m ms ih =>
    intro acc
    simp only [List.foldl_cons, List.filterMap_cons]
    cases hnull : ((m.get "id").getD Json.null).isNull with
    | true =>
      have hstep : batchStep registry provider_info acc m = acc := by
        simp [batchStep, hnull]
      have hresp : respondTo registry provider_info m = none := by
        simp [respondTo, hnull]
      rw [hstep, hresp, ih]
    | false =>
      cases hp : parseMCPRequest m with
      | some req =>
        have hstep : batchStep registry provider_info acc m =
            acc ++ [dispatchRequest registry provider_info req] := by
          simp [batchStep, hnull, hp]
        have hresp : respondTo registry provider_info m =
            some (dispatchRequest registry provider_info req) := by
          simp [respondTo, hnull, hp]
        rw [hstep, hresp, ih]
        simp
      | none =>
        have hstep : batchStep registry provider_info acc m =
            acc ++ [create_error_response ((m.get "id").getD Json.null) (-32700)
              "Parse error: Invalid MCPRequest"] := by
          simp [batchStep, hnull, hp]
        have hresp : respondTo registry provider_info m =
            some (create_error_response ((m.get "id").getD Json.null) (-32700)
              "Parse error: Invalid MCPRequest") := by
          simp [respondTo, hnull, hp]
        rw [hstep, hresp, ih]
        simp

theorem process_batch_eq (registry : PluginRegistry) (provider_info : Json)
    (messages : List Json) :
    process_batch registry provider_info messages =
      (if (messages.filterMap (respondTo registry provider_info)).isEmpty then none
       else some (Json.arr (messages.filterMap (respondTo registry provider_info)))) := by
  unfold process_batch
  rw [batch_foldl_eq]
  simp

theorem length_filterMap_respondTo (registry : PluginRegistry) (provider_info : Json)
    (messages : List Json) :
    (messages.filterMap (respondTo registry provider_info)).length = countIds messages := by
  induction messages with
  | nil => rfl
  | cons m ms ih =>
    simp only [List.filterMap_cons, countIds, List.countP_cons]
    cases hnull : ((m.get "id").getD Json.null).isNull with
    | true =>
      have hresp : respondTo registry provider_info m = none := by
        simp [respondTo, hnull]
      simp [hresp, hnull, ih, countIds]
    | false =>
      have hresp : (respondTo registry provider_info m).isSome = true := by
        cases hp : parseMCPRequest m with
        | some req => simp [respondTo, hnull, hp]
        | none => simp [respondTo, hnull, hp]
      obtain ⟨r, hr⟩ := Option.isSome_iff_exists.mp hresp
      simp [hr, hnull, ih, countIds]

/-- **C3.** For every batch of `n` envelopes of which `k` carry a (non-null)
`id` and `n−k` are notifications, the batch handler returns the array of
exactly the `k` responses of the `id`-carrying elements, ordered by their
first appearance in the input (`filterMap` preserves input order); when
`k = 0` it returns no body at all, and `POST /mcp` then answers 204 No
Content (200 with the array otherwise). -/
theorem claim_C3 (registry : PluginRegistry) (provider_info : Json)
    (messages : List Json) :
    process_batch registry provider_info messages =
      (if (messages.filterMap (respondTo registry provider_info)).isEmpty then none
       else some (Json.arr (messages.filterMap (respondTo registry provider_info))))
    ∧ (messages.filterMap (respondTo registry provider_info)).length = countIds messages
    ∧ (handle_streamable_post registry provider_info (Json.arr messages)).1 =
        (if countIds messages = 0 then 204 else 200) := by
  refine ⟨process_batch_eq registry provider_info messages,
    length_filterMap_respondTo registry provider_info messages, ?_⟩
  have hlen := length_filterMap_respondTo registry provider_info messages
  have hmsg : handle_message registry provider_info (Json.arr messages) =
      process_batch registry provider_info messages := rfl
  unfold handle_streamable_post
  rw [hmsg, process_batch_eq]
  by_cases hk : countIds messages = 0
  · have : (messages.filterMap (respondTo registry provider_info)).isEmpty = true := by
      rw [List.isEmpty_iff_length_eq_zero, hlen]
      exact hk
    simp [this, hk]
  · have : (messages.filterMap (respondTo registry provider_info)).isEmpty = false := by
      cases h : (messages.filterMap (respondTo registry provider_info)).isEmpty with
      | false => rfl
      | true =>
        exact absurd (hlen ▸ List.isEmpty_iff_length_eq_zero.mp h) hk
    simp [this, hk]

/-- **C10.** Inside a batch, an element whose `id` field is present but equal
to JSON null is treated as a notification: it contributes no element to the
response array, even when it is a well-formed request for a known method. -/
theorem claim_C10 (registry : PluginRegistry) (provider_info : Json)
    (before after : List Json) (m : Json)
    (hid : m.get "id" = some Json.null) :
    process_batch registry provider_info (before ++ m :: after) =
      process_batch registry provider_info (before ++ after) := by
  have hresp : respondTo registry provider_info m = none := by
    simp [respondTo, hid, Json.isNull]
  rw [process_batch_eq, process_batch_eq]
  rw [List.filterMap_append, List.filterMap_append, List.filterMap_cons, hresp]

/-- Witness for C10: a batch pairing a null-id `ping` (a well-formed request
for a known method) with an ordinary `ping`; the null-id element contributes
nothing. -/
theorem claim_C10_witness :
    process_batch ⟨[]⟩ Json.null
        ([Json.obj [("jsonrpc", Json.str "2.0"), ("id", Json.num 7),
            ("method", Json.str "ping")]] ++
          Json.obj [("jsonrpc", Json.str "2.0"), ("id", Json.null),
            ("method", Json.str "ping")] :: []) =
      process_batch ⟨[]⟩ Json.null
        ([Json.obj [("jsonrpc", Json.str "2.0"), ("id", Json.num 7),
            ("method", Json.str "ping")]] ++ []) :=
  claim_C10 ⟨[]⟩ Json.null
    [Json.obj [("jsonrpc", Json.str "2.0"), ("id", Json.num 7),
      ("method", Json.str "ping")]] []
    (Json.obj [("jsonrpc", Json.str "2.0"), ("id", Json.null),
      ("method", Json.str "ping")]) rfl

theorem parseMCPRequest_obj (message : Json) (req : MCPRequest)
    (h : parseMCPRequest message = some req) :
    ∃ fields, message = Json.obj fields := by
  cases message with
  | obj fields => exact ⟨fields, rfl⟩
  | null => simp [parseMCPRequest] at h
  | bool b => simp [parseMCPRequest] at h
  | num n => simp [parseMCPRequest] at h
  | str s => simp [parseMCPRequest] at h
  | arr xs => simp [parseMCPRequest] at h

theorem parseMCPRequest_get_id (message : Json) (req : MCPRequest)
    (h : parseMCPRequest message = some req) :
    message.get "id" = some req.id := by
  obtain ⟨fields, rfl⟩ := parseMCPRequest_obj message req h
  unfold parseMCPRequest at h
  cases hidv : (Json.obj fields).get "id" with
  | none => rw [hidv] at h; simp at h
  | some idv =>
    cases hm : ((Json.obj fields).get "method").bind Json.asStr with
    | none => rw [hidv, hm] at h; simp at h
    | some m =>
      rw [hidv, hm] at h
      cases hjr : (match (Json.obj fields).get "jsonrpc" with
                   | none => some "2.0"
                   | some (Json.str s) => some s
                   | some _ => none) with
      | none => rw [hjr] at h; simp at h
      | some jr =>
        rw [hjr] at h
        simp only [Option.some.injEq] at h
        rw [← h]

theorem dispatchRequest_get_id (registry : PluginRegistry) (provider_info : Json)
    (req : MCPRequest) :
    (dispatchRequest registry provider_info req).get "id" = some req.id := by
  unfold dispatchRequest handle_initialize handle_list_resources handle_read_resource
    handle_list_tools handle_call_tool handle_completions handle_ping
  dsimp only
  repeat' (first | rfl | split)

/-- Counterexample to **C4** as stated: a single well-formed notification (no
`id` field) delivered to the message handler *does* produce a response — the
`MCPRequest` type requires `id`, so the notification fails deserialization
and is answered with a `-32700` parse error — where the claim demands that no
response be produced. -/
theorem claim_C4_counterexample :
    (Json.obj [("jsonrpc", Json.str "2.0"), ("method", Json.str "ping")]).get "id" = none
    ∧ (handle_message ⟨[]⟩ Json.null
        (Json.obj [("jsonrpc", Json.str "2.0"),
          ("method", Json.str "ping")])).isSome = true :=
  ⟨rfl, rfl⟩

/-- **C4 (amended).** For every message that deserializes as an `MCPRequest`
(which requires an `id` field, null allowed): delivered as a single object it
produces exactly one response, carrying the request's `id` — including when
`id` is null, so a *single* notification-style message is still answered;
delivered inside a batch it contributes exactly one response (the dispatched
one) when its `id` is non-null and none when its `id` is null.  (A single
object with *no* `id` field fails deserialization and is answered with a
`-32700` parse error, per the counterexample.) -/
theorem claim_C4 (registry : PluginRegistry) (provider_info : Json)
    (message : Json) (req : MCPRequest)
    (hparse : parseMCPRequest message = some req) :
    handle_message registry provider_info message =
      some (dispatchRequest registry provider_info req)
    ∧ (dispatchRequest registry provider_info req).get "id" = some req.id
    ∧ (req.id.isNull = false →
        respondTo registry provider_info message =
          some (dispatchRequest registry provider_info req))
    ∧ (req.id.isNull = true →
        respondTo registry provider_info message = none) := by
  obtain ⟨fields, rfl⟩ := parseMCPRequest_obj message req hparse
  have hid := parseMCPRequest_get_id (Json.obj fields) req hparse
  refine ⟨?_, dispatchRequest_get_id registry provider_info req, ?_, ?_⟩
  · show process_mcp_message registry provider_info (Json.obj fields) = _
    unfold process_mcp_message
    rw [hparse]
  · intro hnot
    simp [respondTo, hid, hnot, hparse]
  · intro hnull
    simp [respondTo, hid, hnull]

/-- Witness for C4 (amended): a single `ping` with id 7. -/
theorem claim_C4_witness :
    handle_message ⟨[]⟩ Json.null
        (Json.obj [("jsonrpc", Json.str "2.0"), ("id", Json.num 7),
          ("method", Json.str "ping")]) =
      some (dispatchRequest ⟨[]⟩ Json.null ⟨"2.0", Json.num 7, "ping", none⟩) :=
  (claim_C4 ⟨[]⟩ Json.null
    (Json.obj [("jsonrpc", Json.str "2.0"), ("id", Json.num 7),
      ("method", Json.str "ping")])
    ⟨"2.0", Json.num 7, "ping", none⟩ rfl).1

/-! ## Claims about the /mcp session lifecycle (C5, C6) -/

theorem containsKey_cons (e : String × HttpSessionInfo) (es : SessionTable)
    (k : String) : containsKey (e :: es) k = (e.1 == k || containsKey es k) := rfl

theorem lookupSession_cons (e : String × HttpSessionInfo) (es : SessionTable)
    (k : String) :
    lookupSession (e :: es) k =
      (if e.1 == k then some e.2 else lookupSession es k) := by
  cases h : e.1 == k <;> simp [lookupSession, List.find?_cons, h]

theorem containsKey_append_single (t : SessionTable) (id : String)
    (info : HttpSessionInfo) : containsKey (t ++ [(id, info)]) id = true := by
  simp [containsKey, List.any_append]

theorem containsKey_map_update (t : SessionTable) (id k : String) (l : String) :
    containsKey (t.map (fun e => if e.1 == id then (e.1, ⟨some l⟩) else e)) k =
      containsKey t k := by
  induction t with
  | nil => rfl
  | cons e es ih =>
    rw [List.map_cons, containsKey_cons, containsKey_cons, ih]
    have h1 : (if e.1 == id then ((e.1 : String), (⟨some l⟩ : HttpSessionInfo)) else e).1 =
        e.1 := by
      by_cases h : (e.1 == id) = true <;> simp [h]
    rw [h1]

theorem containsKey_sessionEntryUpdate (t : SessionTable) (id : String)
    (leid : Option String) :
    containsKey (sessionEntryUpdate t id leid) id = true := by
  unfold sessionEntryUpdate
  cases leid with
  | none =>
    by_cases h : containsKey t id = true
    · simp [h]
    · simp only [Bool.not_eq_true] at h
      simp [h, containsKey_append_single]
  | some l =>
    rw [containsKey_map_update]
    by_cases h : containsKey t id = true
    · simp [h]
    · simp only [Bool.not_eq_true] at h
      simp [h, containsKey_append_single]

/-- Counterexample to **C5** as stated: a GET on `/mcp` with no
`mcp-session-id` header is answered 400 with no session allocated (the claim
demands 200 plus a fresh session), and a GET bearing an id matching no
existing session is served 200 — with the session *created* — rather than
rejected. -/
theorem claim_C5_counterexample :
    (handle_streamable_get [] none none).1.status = 400
    ∧ (handle_streamable_get [] none none).2 = []
    ∧ (handle_streamable_get [] (some "S1") none).1.status = 200
    ∧ (handle_streamable_get [] (some "S1") none).2 = [("S1", ⟨none⟩)] :=
  ⟨rfl, rfl, rfl, rfl⟩

/-- **C5 (amended).** A GET on `/mcp` with no `mcp-session-id` header is
rejected with 400 and the session table is unchanged; a GET bearing an id —
matching an existing session or not — is served 200 as an SSE stream, the
session being created if absent; and no `mcp-session-id` response header is
ever set. -/
theorem claim_C5 (t : SessionTable) (id : String) (leid : Option String) :
    handle_streamable_get t none leid =
      ({ status := 400, headers := [], body := "mcp-session-id header required" }, t)
    ∧ (handle_streamable_get t (some id) leid).1.status = 200
    ∧ ((handle_streamable_get t (some id) leid).1.headers.find?
        (fun h => h.1 == "mcp-session-id")) = none
    ∧ (containsKey t id = false →
        containsKey (handle_streamable_get t (some id) leid).2 id = true) := by
  refine ⟨rfl, rfl, rfl, ?_⟩
  intro _
  exact containsKey_sessionEntryUpdate t id leid

/-- Witness for C5 (amended) on the empty table and session id `"S1"`. -/
theorem claim_C5_witness :
    handle_streamable_get [] none none =
      ({ status := 400, headers := [], body := "mcp-session-id header required" }, [])
    ∧ (handle_streamable_get [] (some "S1") none).1.status = 200
    ∧ ((handle_streamable_get [] (some "S1") none).1.headers.find?
        (fun h => h.1 == "mcp-session-id")) = none
    ∧ containsKey (handle_streamable_get [] (some "S1") none).2 "S1" = true :=
  ⟨(claim_C5 [] "S1" none).1, (claim_C5 [] "S1" none).2.1,
   (claim_C5 [] "S1" none).2.2.1, (claim_C5 [] "S1" none).2.2.2 (by decide)⟩

theorem removeKey_cons_drop (e : String × HttpSessionInfo) (es : SessionTable)
    (id : String) (h : (e.1 == id) = true) :
    removeKey (e :: es) id = removeKey es id := by
  simp [removeKey, List.filter_cons, h]

theorem removeKey_cons_keep (e : String × HttpSessionInfo) (es : SessionTable)
    (id : String) (h : (e.1 == id) = false) :
    removeKey (e :: es) id = e :: removeKey es id := by
  simp [removeKey, List.filter_cons, h]

theorem containsKey_removeKey (t : SessionTable) (id : String) :
    containsKey (removeKey t id) id = false := by
  induction t with
  | nil => rfl
  | cons e es ih =>
    cases hei : e.1 == id with
    | true => rw [removeKey_cons_drop e es id hei, ih]
    | false =>
      rw [removeKey_cons_keep e es id hei, containsKey_cons, ih, hei]
      rfl

theorem lookupSession_removeKey (t : SessionTable) (id other : String) :
    lookupSession (removeKey t id) other =
      (if other == id then none else lookupSession t other) := by
  induction t with
  | nil => cases h : other == id <;> simp [lookupSession, removeKey, h]
  | cons e es ih =>
    cases hei : e.1 == id with
    | true =>
      rw [removeKey_cons_drop e es id hei, ih]
      cases hoi : other == id with
      | true => simp
      | false =>
        have heid : e.1 = id := by simpa using hei
        have hoe : (e.1 == other) = false := by
          have h1 : ¬other = id := by simpa using hoi
          rw [heid]
          simp only [beq_eq_false_iff_ne, ne_eq]
          exact fun hc => h1 hc.symm
        rw [lookupSession_cons, hoe]
        simp
    | false =>
      rw [removeKey_cons_keep e es id hei, lookupSession_cons, lookupSession_cons, ih]
      cases hoe : e.1 == other with
      | true =>
        have h1 : e.1 = other := by simpa using hoe
        have h2 : ¬e.1 = id := by simpa using hei
        have hoi : (other == id) = false := by
          simp only [beq_eq_false_iff_ne, ne_eq]
          exact fun hc => h2 (h1 ▸ hc)
        simp [hoi]
      | false => simp

/-- **C6.** For every DELETE on `/mcp`: with no `mcp-session-id` header it
returns 400 and the table is unchanged; with an id not in the session table
it returns 404 and the table is unchanged; with a known id it returns 200 and
removes exactly that session (lookups of every other id are unaffected), so
an immediately repeated DELETE with the same id returns 404. -/
theorem claim_C6 (t : SessionTable) (id other : String) :
    handle_streamable_delete t none =
      ({ status := 400, headers := [], body := "mcp-session-id header required" }, t)
    ∧ handle_streamable_delete t (some id) =
        (if containsKey t id = true then
          ({ status := 200, headers := [], body := "Session terminated" }, removeKey t id)
         else
          ({ status := 404, headers := [], body := "Session not found" }, t))
    ∧ lookupSession (removeKey t id) other =
        (if other == id then none else lookupSession t other)
    ∧ (handle_streamable_delete (removeKey t id) (some id)).1.status = 404
    ∧ (handle_streamable_delete (removeKey t id) (some id)).2 = removeKey t id := by
  refine ⟨rfl, ?_, lookupSession_removeKey t id other, ?_, ?_⟩
  · unfold handle_streamable_delete
    by_cases h : containsKey t id = true
    · simp [h]
    · simp only [Bool.not_eq_true] at h
      simp [h]
  · unfold handle_streamable_delete
    simp [containsKey_removeKey]
  · unfold handle_streamable_delete
    simp [containsKey_removeKey]

end Mcpi


